import Mathlib

/-!
Verification of the transaction authenticity and identity layer of the
blockchain-class repository (package `database`).

Go strings are modelled as `List Char`; every identifier the code accepts is
ASCII, on which Go's byte-wise view and the character-wise view coincide.
Go's `*big.Int` signature components, which may be nil, are modelled as
`Option Int`.  Functions returning Go's `(value, error)` pairs are modelled
as pairs with an `Option Err` second component (`none` = nil error), and
functions returning a bare `error` as `Option Err`.

The elliptic-curve signature package (`signature.Sign`, `VerifySignature`,
`FromAddress`) and go-ethereum's `crypto.PubkeyToAddress` are external
collaborators; the spec treats them as capabilities given at their
interface.  They are modelled as oracle parameters (structures of abstract
functions) so that every theorem about `Sign` and `Validate` holds for an
arbitrary behaviour of the primitives.
-/

namespace Database

/-- Errors returned by the database package.  Each distinct `errors.New` /
`fmt.Errorf` site gets its own constructor; errors produced by the external
signature primitives are wrapped in `prim`. -/
inductive Err where
  | invalidAccountFormat : Err
  | fromNotFormatted : Err
  | toNotFormatted : Err
  | invalidChainID (got expected : Nat) : Err
  | selfTransfer (fromID toID : List Char) : Err
  | addressMismatch : Err
  | prim (msg : List Char) : Err
deriving DecidableEq, Repr

/-- `AccountID` is a Go string type: modelled as a character list. -/
abbrev AccountID := List Char

/-- `isHexCharacter` returns bool of c being a valid hexadecimal. -/
def isHexCharacter (c : Char) : Bool :=
  ('0' ≤ c && c ≤ '9') || ('a' ≤ c && c ≤ 'f') || ('A' ≤ c && c ≤ 'F')

/-- `isHex` validates whether each byte is valid hexadecimal string. -/
def isHex (a : AccountID) : Bool :=
  if a.length % 2 ≠ 0 then false
  else a.all isHexCharacter

/-- `has0xPrefix` validates the account starts with a 0x. -/
def has0xPrefix (a : AccountID) : Bool :=
  match a with
  | c0 :: c1 :: _ => c0 == '0' && (c1 == 'x' || c1 == 'X')
  | _ => false

/-- `AccountID.IsAccountID` verifies whether the underlying data represents
a valid hex-encoded account (addressLength = 20; an optional `0x`/`0X`
prefix is stripped first). -/
def AccountID.IsAccountID (a : AccountID) : Bool :=
  let a' := if has0xPrefix a then a.drop 2 else a
  a'.length == 2 * 20 && isHex a'

/-- `ToAccountID` converts a hex-encoded string to an account and validates
the hex-encoded string is formatted correctly.  Returns the Go pair
`(AccountID, error)`: `("", err)` on failure, `(hex, nil)` on success. -/
def ToAccountID (hex : List Char) : AccountID × Option Err :=
  if !(AccountID.IsAccountID hex) then ([], some .invalidAccountFormat)
  else (hex, none)

/-- Hex digit for a value below 16, lower case (as `fmt`/go-ethereum render
hex). -/
def hexDigit (n : Nat) : Char :=
  if n < 10 then Char.ofNat (48 + n) else Char.ofNat (87 + n)

/-- Render a byte list as hex characters, two per byte. -/
def bytesToHex : List Nat → List Char
  | [] => []
  | b :: bs => hexDigit (b % 256 / 16) :: hexDigit (b % 256 % 16) :: bytesToHex bs

/-- Modelled from the spec: `PublicKeyToAccountID` returns
`crypto.PubkeyToAddress(pk).String()`; go-ethereum's `crypto` package is an
external library not under the repository sources.  Per the spec, the
identifier is deterministically derived from the public key — a fixed-width
hash whose last 20 bytes are rendered as a `0x`-prefixed 40-hex-character
string.  We model the rendering stage: the derived 20-byte value is the
argument and the result is `0x` followed by its 40 hex digits. -/
def PublicKeyToAccountID (addressBytes : List Nat) : AccountID :=
  '0' :: 'x' :: bytesToHex addressBytes

/- Bounds-checked shadow of `has0xPrefix` / `IsAccountID`: every character
index and slice of the Go code is performed through a checked access that
yields `none` when out of range, mirroring Go's run-time bounds panic, and
Go's `&&` short-circuit order is kept (`a[1]` is read only after
`a[0] == '0'` held).  Agreement with the total functions above shows no
out-of-range access is reachable. -/

/-- `has0xPrefix` with Go's evaluation order and bounds-checked indexing:
`len(a) >= 2 && a[0] == '0' && (a[1] == 'x' || a[1] == 'X')`. -/
def has0xPrefixChecked (a : AccountID) : Option Bool :=
  if a.length ≥ 2 then
    match a[0]? with
    | none => none
    | some c0 =>
      if c0 == '0' then
        match a[1]? with
        | none => none
        | some c1 => some (c1 == 'x' || c1 == 'X')
      else some false
  else some false

/-- `IsAccountID` with the slice `a[2:]` bounds-checked (Go panics when the
low bound exceeds the length). -/
def isAccountIDChecked (a : AccountID) : Option Bool := do
  let p ← has0xPrefixChecked a
  let a' ← if p then (if 2 ≤ a.length then some (a.drop 2) else none) else some a
  some (a'.length == 2 * 20 && isHex a')

/-- `Tx` is the transactional information between two parties. -/
structure Tx where
  ChainID : Nat
  Nonce : Nat
  FromID : AccountID
  ToID : AccountID
  Value : Nat
  Tip : Nat
  Data : List Nat
deriving DecidableEq, Repr

/-- The zero value `Tx{}` of Go. -/
def Tx.zero : Tx :=
  { ChainID := 0, Nonce := 0, FromID := [], ToID := [], Value := 0, Tip := 0, Data := [] }

/-- `NewTx` constructs a new transaction.  Returns the Go pair
`(Tx, error)`. -/
def NewTx (chainID : Nat) (nonce : Nat) (fromID : AccountID) (toID : AccountID)
    (value : Nat) (tip : Nat) (data : List Nat) : Tx × Option Err :=
  if !(AccountID.IsAccountID fromID) then (Tx.zero, some .fromNotFormatted)
  else if !(AccountID.IsAccountID toID) then (Tx.zero, some .toNotFormatted)
  else ({ ChainID := chainID, Nonce := nonce, FromID := fromID, ToID := toID,
          Value := value, Tip := tip, Data := data }, none)

/-- `SignedTx` is a signed version of the transaction: the embedded `Tx`
(Go struct embedding, modelled by structure extension so the `Tx` fields
are promoted) plus the signature components `V`, `R`, `S`, nilable
`*big.Int` values modelled as `Option Int`. -/
structure SignedTx extends Tx where
  V : Option Int
  R : Option Int
  S : Option Int
deriving DecidableEq, Repr

/-- The zero value `SignedTx{}` of Go. -/
def SignedTx.zero : SignedTx :=
  { toTx := Tx.zero, V := none, R := none, S := none }

/-- The external `signature` package's signing capability:
`signature.Sign(tx, privateKey)` returns `(v, r, s, err)`.  Private keys
are opaque handles. -/
structure SignOracle where
  sign : Tx → Nat → Option Int × Option Int × Option Int × Option Err

/-- `Tx.Sign` uses the specified private key to sign the transaction:
on a primitive failure it returns `(SignedTx{}, err)`, otherwise the
`SignedTx` embedding `tx` with the three produced components. -/
def Tx.Sign (o : SignOracle) (tx : Tx) (privateKey : Nat) : SignedTx × Option Err :=
  match o.sign tx privateKey with
  | (_, _, _, some e) => (SignedTx.zero, some e)
  | (v, r, s, none) => ({ toTx := tx, V := v, R := r, S := s }, none)

/-- The external `signature` package's verification capabilities:
`signature.VerifySignature(v, r, s)` returns an error or nil, and
`signature.FromAddress(tx, v, r, s)` returns `(address, err)`. -/
structure SigOracle where
  verifySignature : Option Int → Option Int → Option Int → Option Err
  fromAddress : Tx → Option Int → Option Int → Option Int → List Char × Option Err

/-- `SignedTx.Validate` verifies the transaction has a proper signature that
conforms to our standards, where the signature primitives are supplied by
the oracle `o`.  Returns the Go `error` (`none` = nil = success). -/
def SignedTx.Validate (o : SigOracle) (tx : SignedTx) (chainID : Nat) : Option Err :=
  if tx.ChainID ≠ chainID then some (.invalidChainID tx.ChainID chainID)
  else if !(AccountID.IsAccountID tx.FromID) then some .fromNotFormatted
  else if !(AccountID.IsAccountID tx.ToID) then some .toNotFormatted
  else if tx.FromID == tx.ToID then some (.selfTransfer tx.FromID tx.ToID)
  else match o.verifySignature tx.V tx.R tx.S with
    | some e => some e
    | none =>
      match o.fromAddress tx.toTx tx.V tx.R tx.S with
      | (_, some e) => some e
      | (address, none) =>
        if address ≠ tx.FromID then some .addressMismatch
        else none

/-- Written from the spec's words, for comparison with the code's
`IsAccountID`: a string of exactly 40 hexadecimal digits after an optional
`0x` or `0X` prefix. -/
def spec_validAccountString (s : List Char) : Bool :=
  (s.length == 40 && s.all isHexCharacter)
  || (s.length == 42 && (s.take 2 == ['0', 'x'] || s.take 2 == ['0', 'X'])
      && (s.drop 2).all isHexCharacter)

/-- Written from the claim's words, for comparison with the code: a string
matching the pattern `0x` followed by exactly 40 hexadecimal digits. -/
def spec_matches0x40hex (s : List Char) : Bool :=
  s.take 2 == ['0', 'x'] && s.length == 42 && (s.drop 2).all isHexCharacter

/-- Fixture: a trivial behaviour of the signature primitives, used to
instantiate oracle-parametric theorems at a concrete input. -/
def oracle0 : SigOracle :=
  { verifySignature := fun _ _ _ => none
    fromAddress := fun _ _ _ _ => ([], none) }

/-- Fixture: a signing primitive that always succeeds with fixed components. -/
def signOracle0 : SignOracle :=
  { sign := fun _ _ => (some 29, some 7, some 9, none) }

/-- Fixture: a well-formed `0x`-prefixed account identifier. -/
def accountA : AccountID := '0' :: 'x' :: List.replicate 40 'a'

/-- Fixture: a second well-formed account identifier. -/
def accountB : AccountID := '0' :: 'x' :: List.replicate 40 'b'

/-- Fixture: a signed transaction whose sender and recipient coincide. -/
def stxSelf : SignedTx :=
  { ChainID := 1, Nonce := 0, FromID := accountA, ToID := accountA,
    Value := 0, Tip := 0, Data := [], V := none, R := none, S := none }

/- ------------------------------------------------------------------ -/
/- Helper lemmas shared by the claim theorems. -/

theorem len40_and_isHex (a : List Char) :
    (a.length == 40 && isHex a) = (a.length == 40 && a.all isHexCharacter) := by
  by_cases h : a.length = 40
  · simp [isHex, h]
  · have hb : (a.length == 40) = false := by simpa using h
    simp [hb]

theorem has0xPrefix_cons (c0 c1 : Char) (rest : List Char) :
    has0xPrefix (c0 :: c1 :: rest) = (c0 == '0' && (c1 == 'x' || c1 == 'X')) := rfl

theorem IsAccountID_eq_body (s : List Char) :
    AccountID.IsAccountID s
      = ((if has0xPrefix s then s.drop 2 else s).length == 40
        && (if has0xPrefix s then s.drop 2 else s).all isHexCharacter) := by
  have := len40_and_isHex (if has0xPrefix s then s.drop 2 else s)
  simpa [AccountID.IsAccountID] using this

/-- The code's format check agrees everywhere with the predicate written
from the spec's words: exactly 40 hex digits after an optional `0x`/`0X`. -/
theorem IsAccountID_eq_spec (s : List Char) :
    AccountID.IsAccountID s = spec_validAccountString s := by
  rw [IsAccountID_eq_body]
  match s with
  | [] => decide
  | [c] =>
    have h1 : has0xPrefix [c] = false := rfl
    simp [h1, spec_validAccountString]
  | c0 :: c1 :: rest =>
    have htake2 : (c0 :: c1 :: rest).take 2 = [c0, c1] := rfl
    by_cases hp : has0xPrefix (c0 :: c1 :: rest) = true
    · have hp' := hp
      rw [has0xPrefix_cons] at hp'
      simp only [Bool.and_eq_true, Bool.or_eq_true, beq_iff_eq] at hp'
      obtain ⟨h0, h1⟩ := hp'
      subst h0
      have hx : isHexCharacter c1 = false := by
        rcases h1 with h | h <;> subst h <;> decide
      rcases h1 with h | h <;> subst h <;>
        simp [hp, spec_validAccountString, hx, List.length_cons]
    · have hp' := hp
      rw [has0xPrefix_cons] at hp'
      simp only [Bool.and_eq_true, Bool.or_eq_true, beq_iff_eq, not_and, not_or] at hp'
      simp only [if_neg hp]
      by_cases h0 : c0 = '0'
      · obtain ⟨hx, hX⟩ := hp' h0
        subst h0
        simp [spec_validAccountString, htake2, hx, hX]
      · simp [spec_validAccountString, htake2, h0]

theorem bytesToHex_length (bs : List Nat) : (bytesToHex bs).length = 2 * bs.length := by
  induction bs with
  | nil => rfl
  | cons b bs ih => simp [bytesToHex, ih]; omega

theorem hexDigit_hex : ∀ n < 16, isHexCharacter (hexDigit n) = true := by decide

theorem bytesToHex_all (bs : List Nat) : (bytesToHex bs).all isHexCharacter = true := by
  induction bs with
  | nil => rfl
  | cons b bs ih =>
    have hm : b % 256 < 256 := Nat.mod_lt _ (by norm_num)
    have h1 : isHexCharacter (hexDigit (b % 256 / 16)) = true :=
      hexDigit_hex _ (Nat.div_lt_of_lt_mul (by omega))
    have h2 : isHexCharacter (hexDigit (b % 256 % 16)) = true :=
      hexDigit_hex _ (Nat.mod_lt _ (by norm_num))
    simp [bytesToHex, h1, h2, ih]

theorem PublicKeyToAccountID_valid (bs : List Nat) (h : bs.length = 20) :
    AccountID.IsAccountID (PublicKeyToAccountID bs) = true := by
  have hpre : has0xPrefix ('0' :: 'x' :: bytesToHex bs) = true := rfl
  rw [PublicKeyToAccountID, IsAccountID_eq_body]
  simp [hpre, bytesToHex_length, h, bytesToHex_all]

theorem has0xPrefix_length (a : AccountID) (h : has0xPrefix a = true) :
    2 ≤ a.length := by
  match a with
  | [] => exact absurd h (by decide)
  | [c] => simp [show has0xPrefix [c] = false from rfl] at h
  | c0 :: c1 :: rest => simp [List.length_cons]

theorem has0xPrefixChecked_eq (a : AccountID) :
    has0xPrefixChecked a = some (has0xPrefix a) := by
  match a with
  | [] => rfl
  | [c] => rfl
  | c0 :: c1 :: rest =>
    have hlen : 2 ≤ (c0 :: c1 :: rest).length := by simp [List.length_cons]
    by_cases hc : c0 = '0'
    · subst hc
      simp [has0xPrefixChecked, has0xPrefix_cons, hlen]
    · simp [has0xPrefixChecked, has0xPrefix_cons, hlen, hc]

theorem isAccountIDChecked_eq (a : AccountID) :
    isAccountIDChecked a = some (AccountID.IsAccountID a) := by
  rw [isAccountIDChecked, has0xPrefixChecked_eq]
  by_cases hp : has0xPrefix a = true
  · have hlen := has0xPrefix_length a hp
    simp [hp, hlen, AccountID.IsAccountID]
  · simp only [Bool.not_eq_true] at hp
    simp [hp, AccountID.IsAccountID]

theorem toAccountID_success (s : List Char) (h : AccountID.IsAccountID s = true) :
    ToAccountID s = (s, none) := by
  simp [ToAccountID, h]

theorem toAccountID_none_iff (s : List Char) :
    (ToAccountID s).2 = none ↔ AccountID.IsAccountID s = true := by
  by_cases h : AccountID.IsAccountID s = true
  · simp [ToAccountID, h]
  · simp only [Bool.not_eq_true] at h
    simp [ToAccountID, h]

theorem validate_none_iff (o : SigOracle) (tx : SignedTx) (chainID : Nat) :
    tx.Validate o chainID = none ↔
      (tx.ChainID = chainID ∧ AccountID.IsAccountID tx.FromID = true ∧
       AccountID.IsAccountID tx.ToID = true ∧ tx.FromID ≠ tx.ToID ∧
       o.verifySignature tx.V tx.R tx.S = none ∧
       (o.fromAddress tx.toTx tx.V tx.R tx.S).2 = none ∧
       (o.fromAddress tx.toTx tx.V tx.R tx.S).1 = tx.FromID) := by
  constructor
  · intro h
    by_cases h1 : tx.ChainID = chainID
    case neg => simp [SignedTx.Validate, h1] at h
    by_cases h2 : AccountID.IsAccountID tx.FromID = true
    case neg =>
      simp only [Bool.not_eq_true] at h2
      simp [SignedTx.Validate, h1, h2] at h
    by_cases h3 : AccountID.IsAccountID tx.ToID = true
    case neg =>
      simp only [Bool.not_eq_true] at h3
      simp [SignedTx.Validate, h1, h2, h3] at h
    by_cases h4 : tx.FromID = tx.ToID
    case pos => simp [SignedTx.Validate, h1, h2, h3, h4] at h
    have hbe : (tx.FromID == tx.ToID) = false := by simpa using h4
    cases h5 : o.verifySignature tx.V tx.R tx.S with
    | some e => simp [SignedTx.Validate, h1, h2, h3, hbe, h5] at h
    | none =>
      rcases h6 : o.fromAddress tx.toTx tx.V tx.R tx.S with ⟨addr, aerr⟩
      cases aerr with
      | some e => simp [SignedTx.Validate, h1, h2, h3, hbe, h5, h6] at h
      | none =>
        by_cases h7 : addr = tx.FromID
        case neg => simp [SignedTx.Validate, h1, h2, h3, hbe, h5, h6, h7] at h
        exact ⟨h1, h2, h3, h4, rfl, by simp [h6], by simp [h6, h7]⟩
  · rintro ⟨h1, h2, h3, h4, h5, h6, h7⟩
    have hbe : (tx.FromID == tx.ToID) = false := by simpa using h4
    rcases hfa : o.fromAddress tx.toTx tx.V tx.R tx.S with ⟨addr, aerr⟩
    rw [hfa] at h6 h7
    simp only at h6 h7
    subst h6; subst h7
    simp [SignedTx.Validate, h1, h2, h3, hbe, h5, hfa]

/- ------------------------------------------------------------------ -/
/- Claim theorems. -/

/-- Claim C1: `Validate` performs its checks in this exact order,
short-circuiting and returning the first failing check's error — (1)
chain-id mismatch, (2) `FromID` format, (3) `ToID` format, (4)
self-transfer, (5) the error of the signature well-formedness primitive,
(6) the error of identity recovery, or the mismatch error when the
recovered identity differs textually from `FromID` — and it succeeds (nil
error) exactly when every check passes. -/
theorem validate_check_order (o : SigOracle) (tx : SignedTx) (chainID : Nat) :
    (tx.ChainID ≠ chainID →
      tx.Validate o chainID = some (.invalidChainID tx.ChainID chainID))
    ∧ (tx.ChainID = chainID → AccountID.IsAccountID tx.FromID = false →
      tx.Validate o chainID = some .fromNotFormatted)
    ∧ (tx.ChainID = chainID → AccountID.IsAccountID tx.FromID = true →
      AccountID.IsAccountID tx.ToID = false →
      tx.Validate o chainID = some .toNotFormatted)
    ∧ (tx.ChainID = chainID → AccountID.IsAccountID tx.FromID = true →
      AccountID.IsAccountID tx.ToID = true → tx.FromID = tx.ToID →
      tx.Validate o chainID = some (.selfTransfer tx.FromID tx.ToID))
    ∧ (∀ e, tx.ChainID = chainID → AccountID.IsAccountID tx.FromID = true →
      AccountID.IsAccountID tx.ToID = true → tx.FromID ≠ tx.ToID →
      o.verifySignature tx.V tx.R tx.S = some e →
      tx.Validate o chainID = some e)
    ∧ (∀ addr e, tx.ChainID = chainID → AccountID.IsAccountID tx.FromID = true →
      AccountID.IsAccountID tx.ToID = true → tx.FromID ≠ tx.ToID →
      o.verifySignature tx.V tx.R tx.S = none →
      o.fromAddress tx.toTx tx.V tx.R tx.S = (addr, some e) →
      tx.Validate o chainID = some e)
    ∧ (∀ addr, tx.ChainID = chainID → AccountID.IsAccountID tx.FromID = true →
      AccountID.IsAccountID tx.ToID = true → tx.FromID ≠ tx.ToID →
      o.verifySignature tx.V tx.R tx.S = none →
      o.fromAddress tx.toTx tx.V tx.R tx.S = (addr, none) → addr ≠ tx.FromID →
      tx.Validate o chainID = some .addressMismatch)
    ∧ (tx.Validate o chainID = none ↔
      (tx.ChainID = chainID ∧ AccountID.IsAccountID tx.FromID = true ∧
       AccountID.IsAccountID tx.ToID = true ∧ tx.FromID ≠ tx.ToID ∧
       o.verifySignature tx.V tx.R tx.S = none ∧
       (o.fromAddress tx.toTx tx.V tx.R tx.S).2 = none ∧
       (o.fromAddress tx.toTx tx.V tx.R tx.S).1 = tx.FromID)) := by
  refine ⟨?_, ?_, ?_, ?_, ?_, ?_, ?_, validate_none_iff o tx chainID⟩
  · intro h1
    simp [SignedTx.Validate, h1]
  · intro h1 h2
    simp [SignedTx.Validate, h1, h2]
  · intro h1 h2 h3
    simp [SignedTx.Validate, h1, h2, h3]
  · intro h1 h2 h3 h4
    simp [SignedTx.Validate, h1, h2, h3, h4]
  · intro e h1 h2 h3 h4 h5
    have hbe : (tx.FromID == tx.ToID) = false := by simpa using h4
    simp [SignedTx.Validate, h1, h2, h3, hbe, h5]
  · intro addr e h1 h2 h3 h4 h5 h6
    have hbe : (tx.FromID == tx.ToID) = false := by simpa using h4
    simp [SignedTx.Validate, h1, h2, h3, hbe, h5, h6]
  · intro addr h1 h2 h3 h4 h5 h6 h7
    have hbe : (tx.FromID == tx.ToID) = false := by simpa using h4
    simp [SignedTx.Validate, h1, h2, h3, hbe, h5, h6, h7]

/-- Claim C2 (counterexample): the claim says every string not matching
`0x` + 40 hex digits is rejected, but the string of 40 `0` characters —
which lacks the `0x` prefix and so does not match the pattern — is
accepted by `ToAccountID`. -/
theorem toAccountID_c2_counterexample :
    spec_matches0x40hex (List.replicate 40 '0') = false
    ∧ (ToAccountID (List.replicate 40 '0')).2 = none := by
  constructor <;> decide

/-- Claim C2 (amended): `ToAccountID` returns the format error for every
input that does not consist of exactly 40 hexadecimal digits after an
optional `0x`/`0X` prefix. -/
theorem toAccountID_rejects_nonvalid (s : List Char)
    (h : spec_validAccountString s = false) :
    ToAccountID s = ([], some Err.invalidAccountFormat) := by
  have hv : AccountID.IsAccountID s = false := by rw [IsAccountID_eq_spec]; exact h
  simp [ToAccountID, hv]

/-- Claim C2 (witness): the one-character string `z` is not 40 hex digits
after an optional prefix and is rejected with the format error. -/
theorem toAccountID_rejects_nonvalid_witness :
    spec_validAccountString ['z'] = false
    ∧ ToAccountID ['z'] = ([], some Err.invalidAccountFormat) :=
  ⟨by decide, toAccountID_rejects_nonvalid ['z'] (by decide)⟩

/-- Claim C3 (counterexample): the claimed invariant — empty or exactly 42
characters `0x` + 40 hex — fails: the bare 40-character string of `a`
characters is accepted by `IsAccountID` and returned unchanged by
`ToAccountID`, yet is neither empty nor of length 42. -/
theorem accountID_c3_counterexample :
    AccountID.IsAccountID (List.replicate 40 'a') = true
    ∧ (ToAccountID (List.replicate 40 'a')).2 = none
    ∧ (ToAccountID (List.replicate 40 'a')).1 = List.replicate 40 'a'
    ∧ List.replicate 40 'a' ≠ ([] : List Char)
    ∧ (List.replicate 40 'a').length ≠ 42 := by
  refine ⟨by decide, by decide, by decide, by decide, by decide⟩

/-- Claim C3 (amended): every `AccountID` accepted by `IsAccountID`,
returned by `ToAccountID` on success, or produced by
`PublicKeyToAccountID` from a 20-byte value consists of exactly 40
hexadecimal digits after an optional `0x`/`0X` prefix (so its length is 40
or 42, never empty). -/
theorem accountID_shape :
    (∀ s : List Char, AccountID.IsAccountID s = true → spec_validAccountString s = true)
    ∧ (∀ s : List Char, (ToAccountID s).2 = none →
      spec_validAccountString ((ToAccountID s).1) = true)
    ∧ (∀ bs : List Nat, bs.length = 20 →
      spec_validAccountString (PublicKeyToAccountID bs) = true) := by
  refine ⟨?_, ?_, ?_⟩
  · intro s h; rw [← IsAccountID_eq_spec]; exact h
  · intro s h
    have hv := (toAccountID_none_iff s).1 h
    rw [toAccountID_success s hv]
    rw [← IsAccountID_eq_spec]
    exact hv
  · intro bs h
    rw [← IsAccountID_eq_spec]
    exact PublicKeyToAccountID_valid bs h

/-- Claim C4 (counterexample): the claim says `ToAccountID` succeeds on the
empty string, but the code rejects it with the format error (the empty
string has zero, not 40, hex digits). -/
theorem toAccountID_c4_counterexample :
    ToAccountID ([] : List Char) = ([], some Err.invalidAccountFormat) := by
  decide

/-- Claim C4 (amended): `ToAccountID` succeeds exactly on strings of 40
hexadecimal digits after an optional `0x`/`0X` prefix — in particular on
`0x` + 40 hex and on bare 40-hex strings — and fails with the format error
on everything else, including the empty string. -/
theorem toAccountID_succeeds_iff (s : List Char) :
    (ToAccountID s).2 = none ↔ spec_validAccountString s = true := by
  rw [toAccountID_none_iff, IsAccountID_eq_spec]

/-- Claim C5: a self-transfer is never accepted — for every signed
transaction whose `FromID` equals `ToID`, `Validate` never returns
success, and when the chain id matches and both identifiers are
well-formed it returns precisely the self-transfer error. -/
theorem validate_self_transfer (o : SigOracle) (tx : SignedTx) (chainID : Nat)
    (h : tx.FromID = tx.ToID) :
    tx.Validate o chainID ≠ none
    ∧ (tx.ChainID = chainID → AccountID.IsAccountID tx.FromID = true →
      AccountID.IsAccountID tx.ToID = true →
      tx.Validate o chainID = some (.selfTransfer tx.FromID tx.ToID)) := by
  constructor
  · intro hn
    exact ((validate_none_iff o tx chainID).1 hn).2.2.2.1 h
  · intro h1 h2 h3
    have hbe : (tx.FromID == tx.ToID) = true := by simpa using h
    simp [SignedTx.Validate, h1, h2, h3, hbe]

/-- Claim C5 (witness): a concrete signed transaction sending to its own
sender, with matching chain id and well-formed identifiers, is rejected
with the self-transfer error. -/
theorem validate_self_transfer_witness :
    stxSelf.Validate oracle0 1 = some (Err.selfTransfer accountA accountA) :=
  (validate_self_transfer oracle0 stxSelf 1 rfl).2 rfl (by decide) (by decide)

/-- Claim C6: `NewTx` fails with the sender-format error when `fromID` is
malformed, with the recipient-format error when `fromID` is well-formed
but `toID` is not, and otherwise returns a `Tx` holding exactly the seven
supplied arguments; it makes no self-transfer check, so it succeeds when
`fromID` and `toID` are equal and well-formed. -/
theorem newTx_spec (chainID nonce : Nat) (fromID toID : AccountID)
    (value tip : Nat) (data : List Nat) :
    (AccountID.IsAccountID fromID = false →
      NewTx chainID nonce fromID toID value tip data = (Tx.zero, some .fromNotFormatted))
    ∧ (AccountID.IsAccountID fromID = true → AccountID.IsAccountID toID = false →
      NewTx chainID nonce fromID toID value tip data = (Tx.zero, some .toNotFormatted))
    ∧ (AccountID.IsAccountID fromID = true → AccountID.IsAccountID toID = true →
      NewTx chainID nonce fromID toID value tip data
        = ({ ChainID := chainID, Nonce := nonce, FromID := fromID, ToID := toID,
             Value := value, Tip := tip, Data := data }, none))
    ∧ (AccountID.IsAccountID fromID = true → fromID = toID →
      (NewTx chainID nonce fromID toID value tip data).2 = none) := by
  refine ⟨?_, ?_, ?_, ?_⟩
  · intro h1; simp [NewTx, h1]
  · intro h1 h2; simp [NewTx, h1, h2]
  · intro h1 h2; simp [NewTx, h1, h2]
  · intro h1 h2; subst h2; simp [NewTx, h1]

/-- Claim C7: `Sign` fails exactly when the underlying signing primitive
fails — returning the zero `SignedTx` together with the primitive's error
— and on success returns a `SignedTx` embedding the input `Tx` unchanged
with `V`, `R`, `S` exactly as produced by the primitive. -/
theorem sign_spec (o : SignOracle) (tx : Tx) (pk : Nat) :
    (∀ v r s e, o.sign tx pk = (v, r, s, some e) →
      Tx.Sign o tx pk = (SignedTx.zero, some e))
    ∧ (∀ v r s, o.sign tx pk = (v, r, s, none) →
      Tx.Sign o tx pk = ({ toTx := tx, V := v, R := r, S := s }, none))
    ∧ ((Tx.Sign o tx pk).2 = none ↔ (o.sign tx pk).2.2.2 = none) := by
  refine ⟨?_, ?_, ?_⟩
  · intro v r s e h; simp [Tx.Sign, h]
  · intro v r s h; simp [Tx.Sign, h]
  · rcases hs : o.sign tx pk with ⟨v, r, s, err⟩
    cases err <;> simp [Tx.Sign, hs]

/-- Claim C8: parsing round-trips on valid identifiers — every string
accepted by `IsAccountID` (in particular every rendering of a 20-byte
value as `0x` + 40 hex digits) is returned verbatim by `ToAccountID` with
a nil error, and the returned value again satisfies `IsAccountID`, so
`ToAccountID` is the identity on its accepted inputs. -/
theorem toAccountID_roundtrip :
    (∀ s : List Char, AccountID.IsAccountID s = true →
      ToAccountID s = (s, none) ∧ AccountID.IsAccountID ((ToAccountID s).1) = true)
    ∧ (∀ bs : List Nat, bs.length = 20 →
      AccountID.IsAccountID (PublicKeyToAccountID bs) = true
      ∧ ToAccountID (PublicKeyToAccountID bs) = (PublicKeyToAccountID bs, none)) := by
  constructor
  · intro s h
    refine ⟨toAccountID_success s h, ?_⟩
    rw [toAccountID_success s h]
    exact h
  · intro bs h
    have hv := PublicKeyToAccountID_valid bs h
    exact ⟨hv, toAccountID_success _ hv⟩

/-- Claim C9: `IsAccountID` is a total predicate — on every input,
including empty and odd-length strings, the bounds-checked shadow of the
code (which mirrors Go's short-circuit evaluation and yields `none` on any
out-of-range index or slice) returns `some` of the same boolean, so no
out-of-range access is reachable. -/
theorem isAccountID_total (a : AccountID) :
    has0xPrefixChecked a = some (has0xPrefix a)
    ∧ isAccountIDChecked a = some (AccountID.IsAccountID a) :=
  ⟨has0xPrefixChecked_eq a, isAccountIDChecked_eq a⟩

/-- Claim C10: the codec performs no textual normalization — `ToAccountID`
returns its input verbatim on success, two accepted strings that differ at
all (for example only in hex-letter case or prefix) parse to distinct
`AccountID` values, and `Validate` compares the recovered address to
`FromID` by exact string equality, failing with the mismatch error
whenever they differ textually. -/
theorem codec_no_normalization (o : SigOracle) (s t : List Char)
    (tx : SignedTx) (chainID : Nat) :
    ((ToAccountID s).2 = none → (ToAccountID s).1 = s)
    ∧ (s ≠ t → (ToAccountID s).2 = none → (ToAccountID t).2 = none →
      (ToAccountID s).1 ≠ (ToAccountID t).1)
    ∧ (∀ addr, tx.ChainID = chainID → AccountID.IsAccountID tx.FromID = true →
      AccountID.IsAccountID tx.ToID = true → tx.FromID ≠ tx.ToID →
      o.verifySignature tx.V tx.R tx.S = none →
      o.fromAddress tx.toTx tx.V tx.R tx.S = (addr, none) → addr ≠ tx.FromID →
      tx.Validate o chainID = some .addressMismatch) := by
  refine ⟨?_, ?_, ?_⟩
  · intro h
    rw [toAccountID_success s ((toAccountID_none_iff s).1 h)]
  · intro hne h1 h2
    rw [toAccountID_success s ((toAccountID_none_iff s).1 h1),
      toAccountID_success t ((toAccountID_none_iff t).1 h2)]
    simpa using hne
  · intro addr h1 h2 h3 h4 h5 h6 h7
    have hbe : (tx.FromID == tx.ToID) = false := by simpa using h4
    simp [SignedTx.Validate, h1, h2, h3, hbe, h5, h6, h7]

end Database
